import Mathlib

/-!
Verification of the incremental synchronization core of `wb_backup2s3_core.py`
(class `BackupWB2S3`): hierarchical path resolution, persisted per-site
reconciliation state, the diff/plan step of `backup_site`, the per-item
transfer `_backup_wb2s3`, the state store `_s3_download_upload_state` /
`_s3_upload_upload_state`, and the staleness sweep
`s3_update_outdated_last_modified_in_curr_site`.

Modelling conventions:
- Python `dict`s keyed by string are association lists `List (String × _)`
  with dict-assignment semantics (`stInsert` updates in place or appends).
- `datetime` values are carried as their `strftime` renderings (every use in
  the source compares or stores the rendered string, never the raw value).
- External collaborators (Tableau client, S3 client, filesystem) are oracles
  passed in as function parameters; an exception raised by a collaborator is
  the corresponding error value of the oracle.
- Python exceptions that the source does not catch are `Except.error` values
  (or the `escaped` field of a transfer result, for exceptions raised inside
  a worker task).
-/

set_option autoImplicit false

namespace WbBackup

/-- One workbook as listed by the source inventory (`WorkbookItem` of the
Tableau client); `created_at` and `updated_at` hold the
`strftime('%Y-%m-%d %H:%M:%S%z')` rendering used everywhere in the source. -/
structure WorkbookItem where
  id : String
  name : String
  project_id : String
  project_name : String
  owner_id : String
  size : Nat
  created_at : String
  updated_at : String
deriving DecidableEq

/-- The `Workbook` summary dataclass of the source (put on the queues). -/
structure Workbook where
  name : String
  id : String
  project : String
  size : Nat
deriving DecidableEq

/-- One value of the per-site `upload_state` dict (source lines 205-212). -/
structure StateRecord where
  id : String
  name : String
  created_at : String
  updated_at : String
  upload_date : String
  object_key : String
deriving DecidableEq

/-- The in-memory `self.upload_state` dict: canonical path → record. -/
abbrev SyncState := List (String × StateRecord)

/-- One project as listed by the source (`id`, `name`, `parent_id`). -/
structure ProjectItem where
  id : String
  name : String
  parent_id : Option String
deriving DecidableEq

/-- Lookup in the dict `{i.id: i for i in all_projects}`: a Python dict
comprehension keeps the last item for a duplicated key, hence the
`reverse`. -/
def dictById (ps : List ProjectItem) (pid : String) : Option ProjectItem :=
  ps.reverse.find? (fun p => p.id == pid)

/-- Python dict `get`: first (unique, for a dict) entry at the key. -/
def stLookup (st : SyncState) (k : String) : Option StateRecord :=
  (st.find? (fun p => p.1 == k)).map Prod.snd

/-- Python dict assignment `st[k] = v`: update in place, else append. -/
def stInsert (st : SyncState) (k : String) (v : StateRecord) : SyncState :=
  if st.any (fun p => p.1 == k) then
    st.map (fun p => if p.1 == k then (k, v) else p)
  else
    st ++ [(k, v)]

/-- The entries of `upload_state` whose key is not a live workbook path: the
iteration set of the removal loop in `backup_site` (source lines 250-253). -/
def removedEntries (st : SyncState) (livePaths : List String) : SyncState :=
  st.filter (fun p => !(livePaths.contains p.1))

/-- The net effect on `upload_state` of popping every removed key
(source line 253): only entries at live paths survive. -/
def pruneState (st : SyncState) (livePaths : List String) : SyncState :=
  st.filter (fun p => livePaths.contains p.1)

/-! ## Path resolution (`_fill_project_id_path`, `_get_wb_path`) -/

/-- Outcome of one bounded unrolling of the `while True` ancestry walk:
`done` models reaching the `break`, `keyError` models
`all_projects[parent_id]` raising `KeyError`, and `running` means the loop
has not finished within the given number of iterations. -/
inductive LoopResult where
  | done : List String → LoopResult
  | keyError : LoopResult
  | running : LoopResult
deriving DecidableEq

/-- The `while True` loop of `_fill_project_id_path` (source lines 124-129),
unrolled a given number of iterations. `if parent_id:` is Python truthiness:
`None` and the empty string both break the loop. The source has no fuel —
this parameter only indexes the finite unrollings of the loop. -/
def resolveLoop (ps : List ProjectItem) (pid? : Option String) (acc : List String) :
    Nat → LoopResult
  | 0 => .running
  | n + 1 =>
    match pid? with
    | none => .done acc
    | some pid =>
      if pid.isEmpty then .done acc
      else
        match dictById ps pid with
        | none => .keyError
        | some p => resolveLoop ps p.parent_id (acc ++ [p.name]) n

/-- `self.project_id_path[project.id]` as computed by `_fill_project_id_path`
(source lines 130-131): reversed ancestor names joined with the project's own
name, with a trailing slash. `none` covers the two ways the source fails to
produce a value: a missing `parent_id` (`KeyError`) or a parent cycle, on
which the source loop never terminates (`ps.length + 1` iterations reach
every node of an acyclic forest). -/
def projectIdPathOf (ps : List ProjectItem) (proj : ProjectItem) : Option String :=
  match resolveLoop ps proj.parent_id [] (ps.length + 1) with
  | .done path => some (String.intercalate "/" (path.reverse ++ [proj.name]) ++ "/")
  | _ => none

/-- `_get_wb_path` (source line 108):
`site + '/' + project_id_path[wb.project_id] + wb.name`. -/
def wbPathOf (site : String) (ps : List ProjectItem) (wb : WorkbookItem) : Option String :=
  (dictById ps wb.project_id).bind
    (fun proj => (projectIdPathOf ps proj).map (fun pp => site ++ "/" ++ pp ++ wb.name))

/-! ## Object-key derivation (`_backup_wb2s3`, source line 186) -/

/-- Python `s[-7:]` on the character list of the downloaded file path. -/
def pyLast7 (s : List Char) : List Char := s.drop (s.length - 7)

/-- Python `str.split('.')`: split on every dot, keeping empty segments. -/
def pySplitDot : List Char → List (List Char)
  | [] => [[]]
  | c :: rest =>
    let r := pySplitDot rest
    if c = '.' then [] :: r
    else
      match r with
      | [] => [[c]]
      | h :: t => (c :: h) :: t

/-- `obj_key = wb_path + '.' + file_path[-7:].split('.')[1]` (source
line 186). `none` models the `IndexError` raised when the split of the last
seven characters has no second element. -/
def objKeyOf (wbPath : String) (filePath : List Char) : Option String :=
  ((pySplitDot (pyLast7 filePath))[1]?).map
    (fun e => wbPath ++ "." ++ String.mk e)

/-! ## Per-item transfer (`_backup_wb2s3`, source lines 162-214) -/

/-- Result of `_ts_download_wb`: either the exception it raised, or the file
path returned by `self.ts.workbooks.download` (a character string). -/
inductive DlResult where
  | fail : String → DlResult
  | ok : List Char → DlResult

/-- The two collaborator calls a transfer makes, as oracles: `download wb` is
`_ts_download_wb(wb)`, and `upload wb` is `_s3_upload(...)` for that
workbook (`some e` models a raised exception, `none` success). -/
structure TransferEnv where
  download : WorkbookItem → DlResult
  upload : WorkbookItem → Option String

/-- The summary `Workbook(name=.., project=.., id=.., size=..)` built at the
top of `_backup_wb2s3` (source lines 164-169). -/
def mkSummary (wb : WorkbookItem) : Workbook :=
  ⟨wb.name, wb.id, wb.project_name, wb.size⟩

/-- The record written into `upload_state` on upload success
(source lines 205-212). -/
def mkRecord (today : String) (objKey : String) (wb : WorkbookItem) : StateRecord :=
  { id := wb.id, name := wb.name, created_at := wb.created_at,
    updated_at := wb.updated_at, upload_date := today, object_key := objKey }

/-- Everything one call of `_backup_wb2s3` does: queue puts, the state after
the call, the `os.remove` calls issued, and — `escaped` — an exception that
propagates out of the call uncaught (it is raised between the two
`try` blocks, by the `obj_key` slicing). -/
structure ItemEffects where
  failures : List (String × Workbook)
  successes : List Workbook
  newState : SyncState
  removedFiles : List (List Char)
  escaped : Option String
deriving DecidableEq

/-- `_backup_wb2s3` (source lines 162-214), with the workbook's canonical
path supplied by `wbPath` (the value of `self._get_wb_path(wb)`). On
download failure the exception is queued and nothing else happens; on
download success the `obj_key` slice may raise (`escaped`, nothing queued,
no cleanup — the `os.remove` is never reached); on upload failure the
exception is queued, state is untouched, and the staged file is still
removed; on upload success the state record is written, the success is
queued, and the staged file is removed. -/
def backupWb (env : TransferEnv) (today : String) (wbPath : String)
    (st : SyncState) (wb : WorkbookItem) : ItemEffects :=
  match env.download wb with
  | .fail e =>
    { failures := [(e, mkSummary wb)], successes := [], newState := st,
      removedFiles := [], escaped := none }
  | .ok fp =>
    match objKeyOf wbPath fp with
    | none =>
      { failures := [], successes := [], newState := st,
        removedFiles := [], escaped := some "IndexError" }
    | some objKey =>
      match env.upload wb with
      | some e =>
        { failures := [(e, mkSummary wb)], successes := [], newState := st,
          removedFiles := [fp], escaped := none }
      | none =>
        { failures := [], successes := [mkSummary wb],
          newState := stInsert st wbPath (mkRecord today objKey wb),
          removedFiles := [fp], escaped := none }

/-! ## The transfer phase of `backup_site` (source lines 266-271) -/

/-- Aggregate outcome of running the transfer queue: the shared state, the
contents of the two queues, the files removed, and the exceptions that
escaped the submitted tasks. With `threads=True` the source submits each
task to a `ThreadPoolExecutor`, keeps the futures in `resp`, and never reads
them: the pool's context manager waits for every task, so `escaped` lists
exactly the exceptions sitting unread in those futures. -/
structure RunAcc where
  state : SyncState
  failures : List (String × Workbook)
  successes : List Workbook
  removedFiles : List (List Char)
  escaped : List String
deriving DecidableEq

/-- One task of the pool: run `_backup_wb2s3` and merge its effects. -/
def stepWb (env : TransferEnv) (today : String) (pathF : WorkbookItem → String)
    (acc : RunAcc) (wb : WorkbookItem) : RunAcc :=
  let r := backupWb env today (pathF wb) acc.state wb
  { state := r.newState,
    failures := acc.failures ++ r.failures,
    successes := acc.successes ++ r.successes,
    removedFiles := acc.removedFiles ++ r.removedFiles,
    escaped := acc.escaped ++ r.escaped.toList }

/-- The threaded branch of `backup_site` (source lines 266-268): every
submitted task runs to completion (the `with` block joins the pool), dict
writes are linearized, and escaped exceptions end up in `escaped`, which no
caller ever reads. -/
def runQueueThreaded (env : TransferEnv) (today : String)
    (pathF : WorkbookItem → String) (st : SyncState)
    (queue : List WorkbookItem) : RunAcc :=
  queue.foldl (stepWb env today pathF) ⟨st, [], [], [], []⟩

/-! ## The plan step of `backup_site` (source lines 247-273) -/

/-- The skip test of `backup_site` (source lines 257-261):
`upload_state.get(wb_path)` is truthy and the record's `id`, `updated_at`
and `created_at` all equal the workbook's (rendered) values. -/
def wbUnchanged (st : SyncState) (wbPath : String) (wb : WorkbookItem) : Bool :=
  match stLookup st wbPath with
  | some r => r.id == wb.id && r.updated_at == wb.updated_at && r.created_at == wb.created_at
  | none => false

/-- `queue_to_backup` as accumulated by the loop at source lines 255-264:
the loop runs after the removal loop, so the lookup is against the pruned
state. -/
def queueToBackup (st : SyncState) (pathF : WorkbookItem → String)
    (wbs : List WorkbookItem) : List WorkbookItem :=
  wbs.filter (fun wb => !(wbUnchanged (pruneState st (wbs.map pathF)) (pathF wb) wb))

/-- Outputs of one `backup_site` pass after the site switch: the
last-modified touches issued for removed entries, the transfer queue, and
the aggregate transfer outcome (whose `state` is what
`_s3_upload_upload_state` then persists). -/
structure SiteResult where
  touched : List String
  queue : List WorkbookItem
  run : RunAcc

/-- `backup_site` after `_ts_switch_site` (source lines 247-273), threaded
branch: compute the live paths, touch and pop every state entry at a dead
path, diff the remaining state against the inventory, and run the queue. -/
def backupSitePure (env : TransferEnv) (today : String)
    (pathF : WorkbookItem → String) (st : SyncState)
    (wbs : List WorkbookItem) : SiteResult :=
  let livePaths := wbs.map pathF
  { touched := (removedEntries st livePaths).map (fun p => p.2.object_key),
    queue := queueToBackup st pathF wbs,
    run := runQueueThreaded env today pathF (pruneState st livePaths) (queueToBackup st pathF wbs) }

/-! ## State store (`_s3_download_upload_state`, source lines 353-388) -/

/-- Result of `self.s3.get_object` for one key: the body it returned, a
`botocore` `ClientError` with the given error code, or any other raised
exception. -/
inductive S3GetResult where
  | ok : String → S3GetResult
  | clientError : String → S3GetResult
  | otherError : String → S3GetResult

/-- The deterministic per-site state key
`site_name + '/' + 'upload_state.json'` (source lines 329 and 354). -/
def stateObjKey (site : String) : String :=
  site ++ "/" ++ "upload_state.json"

/-- `_s3_download_upload_state` (source lines 353-388): one `get_object` at
the per-site key; a `ClientError` with code `NoSuchKey` yields the empty
state; any other `ClientError`, any other raised exception, and any
decode/JSON-parse failure of the body is re-raised to the caller. `parse`
is `resp_body.decode()` followed by `json.loads` (`none` models either
raising). -/
def downloadUploadState (get : String → S3GetResult)
    (parse : String → Option SyncState) (site : String) : Except String SyncState :=
  match get (stateObjKey site) with
  | .ok body =>
    match parse body with
    | some st => .ok st
    | none => .error "StateParseError"
  | .clientError code =>
    if code == "NoSuchKey" then .ok []
    else .error ("ClientError " ++ code)
  | .otherError e => .error e

/-! ## Staleness sweep (source lines 303-317) -/

/-- One listed S3 object: its key and the value of
`(datetime.now().astimezone() - obj['LastModified']).days`. -/
structure S3Obj where
  key : String
  ageDays : Int
deriving DecidableEq

/-- Python `str.startswith` on the underlying character lists. -/
def charsStarts : List Char → List Char → Bool
  | _, [] => true
  | [], _ :: _ => false
  | c :: s, d :: p => c == d && charsStarts s p

/-- `key.startswith(site_name + '/')` as used at source line 309. -/
def pyStartswith (s pre : String) : Bool :=
  charsStarts s.data pre.data

/-- `_s3_list_all_objects_in_curr_ts_site` (source lines 303-310): every
bucket object whose key starts with the current site name plus a slash. -/
def listAllObjectsInCurrSite (bucket : List S3Obj) (site : String) : List S3Obj :=
  bucket.filter (fun o => pyStartswith o.key (site ++ "/"))

/-- `s3_update_outdated_last_modified_in_curr_site` (source lines 312-317):
the keys touched — every listed object whose last-modified age in days is at
least the threshold. -/
def updateOutdated (bucket : List S3Obj) (site : String) (days : Int) : List String :=
  ((listAllObjectsInCurrSite bucket site).filter (fun o => days ≤ o.ageDays)).map
    (fun o => o.key)

/-! ## Site switching and orchestration
(`_ts_switch_site`, `backup_site`, `run_backup`) -/

/-- Per-site data of the external collaborators: the inventory site names,
and per session site the workbooks, the projects, and the loaded state
(this model covers the runs where `_s3_download_upload_state` succeeds;
its failure modes are settled separately on `downloadUploadState`). -/
structure TSEnv where
  sites : List String
  workbooksOf : String → List WorkbookItem
  projectsOf : String → List ProjectItem
  stateOf : String → SyncState

/-- The mutable fields of the `BackupWB2S3` object that `_ts_switch_site`
and `backup_site` read: the Tableau session's active site, and
`current_site_name`, `upload_state`, `project_id_path` (the latter held as
the project list it was built from; `none` models the initial `None`). -/
structure ObjState where
  sessionSite : String
  curSiteName : Option String
  uploadState : SyncState
  projects : Option (List ProjectItem)
deriving DecidableEq

/-- `_ts_switch_site` (source lines 136-146). If some inventory site has the
requested name, the session switches to it, `current_site_name` is set, the
state is downloaded and the project table rebuilt; otherwise only a warning
is logged (second component `true`) and every field keeps its previous
value. -/
def tsSwitchSite (env : TSEnv) (o : ObjState) (name : String) : ObjState × Bool :=
  if env.sites.contains name then
    ({ sessionSite := name, curSiteName := some name,
       uploadState := env.stateOf name, projects := some (env.projectsOf name) }, false)
  else (o, true)

/-- The observable outputs of one `backup_site` call. -/
structure SitePassOut where
  warned : Bool
  listedSite : String
  stateWriteKey : String
  finalState : SyncState
  touched : List String
  failures : List (String × Workbook)
  successes : List Workbook
  escaped : List String
  wbCount : Nat
deriving DecidableEq

/-- `backup_site` (source lines 237-273), threaded branch: switch (or warn),
then unconditionally list the session site's workbooks, resolve their paths
(`TypeError` if `current_site_name` or `project_id_path` is still `None`,
`KeyError` if a workbook's project is absent from the table — the cycle case,
on which the source path loop never terminates, also lands on the error
branch, see `resolveLoop`), run the plan and transfer phases, and write the
state object at the current site's key. -/
def backupSiteFull (env : TSEnv) (o : ObjState) (name : String)
    (today : String) (tenv : TransferEnv) : Except String (SitePassOut × ObjState) :=
  let sw := tsSwitchSite env o name
  let wbs := env.workbooksOf sw.1.sessionSite
  match sw.1.curSiteName, sw.1.projects with
  | some cur, some ps =>
    if wbs.all (fun wb => (wbPathOf cur ps wb).isSome) then
      let pathF : WorkbookItem → String := fun wb => (wbPathOf cur ps wb).getD ""
      let res := backupSitePure tenv today pathF sw.1.uploadState wbs
      .ok ({ warned := sw.2, listedSite := sw.1.sessionSite,
             stateWriteKey := stateObjKey cur, finalState := res.run.state,
             touched := res.touched, failures := res.run.failures,
             successes := res.run.successes, escaped := res.run.escaped,
             wbCount := res.queue.length },
           { sw.1 with uploadState := res.run.state })
    else .error "KeyError"
  | _, _ => .error "TypeError"

/-- The site filter of `run_backup` (source lines 225-226):
`if site_names:` is Python truthiness, so `None` and the empty list both
leave the inventory unfiltered. -/
def filterSitesByNames (sites : List String) : Option (List String) → List String
  | none => sites
  | some ns => if ns.isEmpty then sites else sites.filter (fun s => ns.contains s)

/-- Accumulated observable outputs of `run_backup`. -/
structure RunOut where
  passes : List String
  warnedPasses : List String
  totalCount : Nat
  refreshed : List String
deriving DecidableEq

/-- One iteration of the `run_backup` site loop (source lines 228-234):
`backup_site` followed by the staleness sweep for the now-current site. -/
def runBackupStep (env : TSEnv) (today : String) (tenv : TransferEnv)
    (days : Int) (bucket : List S3Obj) (acc : RunOut × ObjState) (site : String) :
    Except String (RunOut × ObjState) :=
  match backupSiteFull env acc.2 site today tenv with
  | .error e => .error e
  | .ok (out, o') =>
    .ok ({ passes := acc.1.passes ++ [site],
           warnedPasses := acc.1.warnedPasses ++ (if out.warned then [site] else []),
           totalCount := acc.1.totalCount + out.wbCount,
           refreshed := acc.1.refreshed ++ updateOutdated bucket (o'.curSiteName.getD "") days },
         o')

/-- `run_backup` (source lines 216-235): filter the inventory sites by the
requested names, then run `backup_site` plus the staleness sweep for each
remaining site in order; an exception from a pass propagates. -/
def runBackup (env : TSEnv) (o : ObjState) (siteNames : Option (List String))
    (today : String) (tenv : TransferEnv) (days : Int) (bucket : List S3Obj) :
    Except String (RunOut × ObjState) :=
  (filterSitesByNames env.sites siteNames).foldlM
    (runBackupStep env today tenv days bucket)
    ({ passes := [], warnedPasses := [], totalCount := 0, refreshed := [] }, o)

/-! ## Concrete instances used in witnesses and counterexamples -/

/-- A one-project self-cycle: `parent_id` of `"a"` points at itself. -/
def cycProjects : List ProjectItem := [⟨"a", "A", some "a"⟩]

/-- The two-level tree Root `A` → Child `B` of the path-determinism test. -/
def exTree : List ProjectItem := [⟨"a", "A", none⟩, ⟨"b", "B", some "a"⟩]

/-- Artifact `Report` living under project `B` of `exTree`. -/
def wbReport : WorkbookItem := ⟨"w1", "Report", "b", "B", "o", 1, "c", "u"⟩

/-- A generic sample workbook. -/
def wbSample : WorkbookItem := ⟨"id1", "W", "p1", "P", "o1", 5, "c1", "u1"⟩

/-- A sample state record for a path no longer present at the source. -/
def recOld : StateRecord := ⟨"i0", "Old", "c0", "u0", "d0", "S1/old.twbx"⟩

/-- Oracle: every download yields a `.twbx` staging file, every upload works. -/
def envAllOk : TransferEnv := ⟨fun _ => .ok ("wd/aaaaaaaa.twbx".data), fun _ => none⟩

/-- Oracle: every download raises. -/
def envDlFail : TransferEnv := ⟨fun _ => .fail "down", fun _ => none⟩

/-- Oracle: downloads succeed, every upload raises. -/
def envUpFail : TransferEnv := ⟨fun _ => .ok ("wd/aaaaaaaa.twbx".data), fun _ => some "up"⟩

/-- Oracle: the download produces a file whose extension has eight
characters, so the last seven characters of the path contain no dot. -/
def envBadExt : TransferEnv := ⟨fun _ => .ok ("wd/aaaaaaaa.abcdefgh".data), fun _ => none⟩

/-- An inventory with the single site `S1`, no workbooks, no projects. -/
def siteEnvS1 : TSEnv := ⟨["S1"], fun _ => [], fun _ => [], fun _ => []⟩

/-- The object right after `__init__`: session on the default site,
`current_site_name` and `project_id_path` still `None`. -/
def objFresh : ObjState := ⟨"S1", none, [], none⟩

/-- The object after a completed pass over `S1`. -/
def objAfterS1 : ObjState := ⟨"S1", some "S1", [], some []⟩

/-! ## Helper lemmas -/

lemma stLookup_cons_pos {p : String × StateRecord} {rest : SyncState} {k : String}
    (h : (p.1 == k) = true) : stLookup (p :: rest) k = some p.2 := by
  simp only [stLookup, List.find?_cons, h, Option.map_some']

lemma stLookup_cons_neg {p : String × StateRecord} {rest : SyncState} {k : String}
    (h : (p.1 == k) = false) : stLookup (p :: rest) k = stLookup rest k := by
  simp only [stLookup, List.find?_cons, h]

lemma stLookup_pruneState (st : SyncState) (lps : List String) (k : String)
    (h : lps.contains k = true) :
    stLookup (pruneState st lps) k = stLookup st k := by
  induction st with
  | nil => rfl
  | cons p rest ih =>
    show stLookup (List.filter _ (p :: rest)) k = _
    rw [List.filter_cons]
    split
    · by_cases hk : (p.1 == k) = true
      · rw [stLookup_cons_pos hk, stLookup_cons_pos hk]
      · have hk' : (p.1 == k) = false := by
          simpa using hk
        rw [stLookup_cons_neg hk', stLookup_cons_neg hk']
        exact ih
    · have hk' : (p.1 == k) = false := by
        rename_i hkeep
        by_contra hcon
        have hp1 : p.1 = k := by
          simpa using hcon
        exact hkeep (hp1 ▸ h)
      rw [stLookup_cons_neg hk']
      exact ih

lemma mem_pruneState {st : SyncState} {lps : List String} {k : String} {r : StateRecord}
    (h : (k, r) ∈ pruneState st lps) : (k, r) ∈ st ∧ lps.contains k = true := by
  have := List.mem_filter.1 h
  exact ⟨this.1, this.2⟩

lemma mem_removedEntries {st : SyncState} {lps : List String} {k : String} {r : StateRecord} :
    (k, r) ∈ removedEntries st lps ↔ (k, r) ∈ st ∧ lps.contains k = false := by
  constructor
  · intro h
    have := List.mem_filter.1 h
    refine ⟨this.1, ?_⟩
    have h2 := this.2
    simp only [Bool.not_eq_true'] at h2
    exact h2
  · intro ⟨h1, h2⟩
    refine List.mem_filter.2 ⟨h1, ?_⟩
    have : ¬ k ∈ lps := by simpa using h2
    simpa using this

lemma mem_stInsert {st : SyncState} {k : String} {v : StateRecord}
    {k' : String} {r' : StateRecord} (h : (k', r') ∈ stInsert st k v) :
    (k', r') ∈ st ∨ k' = k := by
  unfold stInsert at h
  split at h
  · rcases List.mem_map.1 h with ⟨p, hp, heq⟩
    by_cases hcase : (p.1 == k) = true
    · simp only [hcase, if_true] at heq
      cases heq
      exact Or.inr rfl
    · simp only [hcase, if_false] at heq
      exact Or.inl (heq ▸ hp)
  · rcases List.mem_append.1 h with h1 | h1
    · exact Or.inl h1
    · have := List.mem_singleton.1 h1
      cases this
      exact Or.inr rfl

lemma backupWb_state_mem {env : TransferEnv} {today wbPath : String}
    {st : SyncState} {wb : WorkbookItem} {k : String} {r : StateRecord}
    (h : (k, r) ∈ (backupWb env today wbPath st wb).newState) :
    (k, r) ∈ st ∨ k = wbPath := by
  revert h
  unfold backupWb
  rcases env.download wb with e | fp
  · exact fun h => Or.inl h
  · dsimp only
    rcases objKeyOf wbPath fp with _ | objKey
    · exact fun h => Or.inl h
    · rcases env.upload wb with _ | e
      · exact fun h => mem_stInsert h
      · exact fun h => Or.inl h

lemma foldl_stepWb_state_mem {env : TransferEnv} {today : String}
    {pathF : WorkbookItem → String} :
    ∀ (queue : List WorkbookItem) (acc : RunAcc) (k : String) (r : StateRecord),
      (k, r) ∈ (queue.foldl (stepWb env today pathF) acc).state →
      (k, r) ∈ acc.state ∨ ∃ wb ∈ queue, pathF wb = k := by
  intro queue
  induction queue with
  | nil => intro acc k r h; exact Or.inl h
  | cons wb rest ih =>
    intro acc k r h
    rcases ih (stepWb env today pathF acc wb) k r h with h1 | ⟨w, hw, hk⟩
    · rcases backupWb_state_mem h1 with h2 | h2
      · exact Or.inl h2
      · exact Or.inr ⟨wb, List.mem_cons_self _ _, h2.symm⟩
    · exact Or.inr ⟨w, List.mem_cons_of_mem _ hw, hk⟩

lemma backupSitePure_state_live {env : TransferEnv} {today : String}
    {pathF : WorkbookItem → String} {st : SyncState} {wbs : List WorkbookItem}
    {p : String × StateRecord}
    (h : p ∈ (backupSitePure env today pathF st wbs).run.state) :
    p.1 ∈ wbs.map pathF := by
  rcases foldl_stepWb_state_mem _ _ p.1 p.2 h with h1 | ⟨wb, hwb, hk⟩
  · have := (mem_pruneState h1).2
    simpa using this
  · exact hk ▸ List.mem_map_of_mem pathF (List.mem_of_mem_filter hwb)

lemma charsStarts_append (l t : List Char) : charsStarts (l ++ t) l = true := by
  induction l with
  | nil => cases t <;> rfl
  | cons c rest ih => simp [charsStarts, ih]

lemma pySplitDot_no_dot {b : List Char} (hb : ('.' : Char) ∉ b) :
    pySplitDot b = [b] := by
  induction b with
  | nil => rfl
  | cons c rest ih =>
    have hc : c ≠ '.' := fun h => hb (h ▸ List.mem_cons_self _ _)
    have hrest : ('.' : Char) ∉ rest := fun h => hb (List.mem_cons_of_mem _ h)
    simp [pySplitDot, hc, ih hrest]

lemma pySplitDot_append {a b : List Char} (ha : ('.' : Char) ∉ a)
    (hb : ('.' : Char) ∉ b) : pySplitDot (a ++ ('.' :: b)) = [a, b] := by
  induction a with
  | nil => simp [pySplitDot, pySplitDot_no_dot hb]
  | cons c rest ih =>
    have hc : c ≠ '.' := fun h => ha (h ▸ List.mem_cons_self _ _)
    have hrest : ('.' : Char) ∉ rest := fun h => ha (List.mem_cons_of_mem _ h)
    simp [pySplitDot, hc, ih hrest]

/-- The ancestry chains on which the `while True` walk of
`_fill_project_id_path` reaches its `break`: the names it collects, nearest
ancestor first. `none` and the empty string are the falsy `parent_id`
values on which `if parent_id:` breaks the loop. -/
inductive Chain (ps : List ProjectItem) : Option String → List String → Prop where
  | root : Chain ps none []
  | emptyStr : Chain ps (some "") []
  | step {pid : String} {p : ProjectItem} {rest : List String}
      (hne : pid.isEmpty = false) (hf : dictById ps pid = some p)
      (hrest : Chain ps p.parent_id rest) : Chain ps (some pid) (p.name :: rest)

lemma resolveLoop_of_chain {ps : List ProjectItem} {pid? : Option String}
    {names : List String} (h : Chain ps pid? names) :
    ∀ acc : List String, ∃ n : Nat, resolveLoop ps pid? acc n = .done (acc ++ names) := by
  induction h with
  | root => exact fun acc => ⟨1, by simp [resolveLoop]⟩
  | emptyStr => exact fun acc => ⟨1, by simp [resolveLoop, String.isEmpty]⟩
  | step hne hf hrest ih =>
    intro acc
    rename_i pid p rest
    obtain ⟨n, hn⟩ := ih (acc ++ [p.name])
    refine ⟨n + 1, ?_⟩
    simp only [resolveLoop, hne, Bool.false_eq_true, if_false, hf]
    rw [hn]
    simp

lemma resolveLoop_keyError {ps : List ProjectItem} {pid : String}
    (hne : pid.isEmpty = false) (hf : dictById ps pid = none) :
    ∀ (acc : List String) (n : Nat), resolveLoop ps (some pid) acc (n + 1) = .keyError := by
  intro acc n
  simp [resolveLoop, hne, hf]

lemma resolveLoop_cyc_running : ∀ (n : Nat) (acc : List String),
    resolveLoop cycProjects (some "a") acc n = .running := by
  intro n
  induction n with
  | zero => intro acc; rfl
  | succ n ih =>
    intro acc
    have hdict : dictById cycProjects "a" = some ⟨"a", "A", some "a"⟩ := rfl
    simp only [resolveLoop, hdict]
    exact ih (acc ++ ["A"])

lemma pyLast7_split (pre idc ext : List Char) (hel : ext.length ≤ 6)
    (hil : 6 ≤ idc.length) :
    pyLast7 (pre ++ (idc ++ '.' :: ext)) =
      idc.drop (idc.length + ext.length - 6) ++ '.' :: ext := by
  unfold pyLast7
  have hlen : (pre ++ (idc ++ '.' :: ext)).length
      = pre.length + (idc.length + ext.length - 6) + 7 := by
    simp only [List.length_append, List.length_cons]
    omega
  rw [hlen]
  have h7 : pre.length + (idc.length + ext.length - 6) + 7 - 7
      = pre.length + (idc.length + ext.length - 6) := by omega
  rw [h7, List.drop_append]
  exact List.drop_append_of_le_length (by omega)

lemma tsSwitchSite_found {env : TSEnv} {o : ObjState} {name : String}
    (hname : env.sites.contains name = true) :
    tsSwitchSite env o name =
      ({ sessionSite := name, curSiteName := some name,
         uploadState := env.stateOf name, projects := some (env.projectsOf name) }, false) := by
  have hmem : name ∈ env.sites := by simpa using hname
  unfold tsSwitchSite
  simp [hmem]

lemma tsSwitchSite_missing {env : TSEnv} {o : ObjState} {name : String}
    (hname : env.sites.contains name = false) :
    tsSwitchSite env o name = (o, true) := by
  have hmem : ¬ name ∈ env.sites := by simpa using hname
  unfold tsSwitchSite
  simp [hmem]

lemma backupSiteFull_found_warned {env : TSEnv} {o : ObjState} {name today : String}
    {tenv : TransferEnv} {out : SitePassOut} {o' : ObjState}
    (hname : env.sites.contains name = true)
    (h : backupSiteFull env o name today tenv = .ok (out, o')) : out.warned = false := by
  rw [backupSiteFull, tsSwitchSite_found hname] at h
  simp only at h
  split at h
  · have := congrArg (fun q : SitePassOut × ObjState => q.1.warned) (Except.ok.inj h)
    exact this.symm
  · exact absurd h (by simp)

lemma runBackupStep_found_warned {env : TSEnv} {today : String} {tenv : TransferEnv}
    {days : Int} {bucket : List S3Obj} {acc acc' : RunOut × ObjState} {s : String}
    (hname : env.sites.contains s = true)
    (h : runBackupStep env today tenv days bucket acc s = .ok acc') :
    acc'.1.warnedPasses = acc.1.warnedPasses := by
  unfold runBackupStep at h
  rcases hb : backupSiteFull env acc.2 s today tenv with e | ⟨o1, o2⟩
  · rw [hb] at h
    exact Except.noConfusion h
  · rw [hb] at h
    have hw : o1.warned = false := backupSiteFull_found_warned hname hb
    have := Except.ok.inj h
    rw [← this]
    simp [hw]

lemma foldlM_runBackupStep_warned {env : TSEnv} {today : String} {tenv : TransferEnv}
    {days : Int} {bucket : List S3Obj} :
    ∀ (l : List String) (acc : RunOut × ObjState) (out : RunOut) (o' : ObjState),
      (∀ s ∈ l, env.sites.contains s = true) →
      l.foldlM (runBackupStep env today tenv days bucket) acc = .ok (out, o') →
      out.warnedPasses = acc.1.warnedPasses := by
  intro l
  induction l with
  | nil =>
    intro acc out o' _ h
    have := Except.ok.inj h
    rw [this]
  | cons s rest ih =>
    intro acc out o' hl h
    rw [List.foldlM_cons] at h
    rcases hstep : runBackupStep env today tenv days bucket acc s with e | acc'
    · rw [hstep] at h
      exact Except.noConfusion h
    · rw [hstep] at h
      have h1 := ih acc' out o' (fun x hx => hl x (List.mem_cons_of_mem _ hx)) h
      rw [h1, runBackupStep_found_warned (hl s (List.mem_cons_self _ _)) hstep]

lemma mem_filterSitesByNames {sites : List String} {names : Option (List String)}
    {s : String} (h : s ∈ filterSitesByNames sites names) : s ∈ sites := by
  rcases names with _ | ns
  · exact h
  · simp only [filterSitesByNames] at h
    by_cases he : ns.isEmpty = true
    · rw [if_pos he] at h
      exact h
    · rw [if_neg he] at h
      exact (List.mem_filter.1 h).1

lemma wbUnchanged_iff {st : SyncState} {p : String} {wb : WorkbookItem} :
    wbUnchanged st p wb = true ↔
      ∃ r, stLookup st p = some r ∧ r.id = wb.id ∧
        r.updated_at = wb.updated_at ∧ r.created_at = wb.created_at := by
  unfold wbUnchanged
  rcases h : stLookup st p with _ | r
  · simp
  · simp [h, and_assoc]

lemma stLookup_pruneState_dead (st : SyncState) (lps : List String) (k : String)
    (h : lps.contains k = false) :
    stLookup (pruneState st lps) k = none := by
  unfold stLookup
  rcases hf : List.find? (fun p => p.1 == k) (pruneState st lps) with _ | p
  · rw [hf]
    rfl
  · have hp := List.find?_some hf
    have hmem := List.mem_of_find?_eq_some hf
    have h2 := (List.mem_filter.1 hmem).2
    have hpk : p.1 = k := by simpa using hp
    rw [hpk] at h2
    rw [h] at h2
    cases h2

/-! ## The claims -/

/-- Claim C1 (code_bug demonstration): with threading enabled, an exception
escaping a worker task — here the `IndexError` raised by the `obj_key`
slicing when the downloaded file's extension has more than six characters —
is NOT routed to the failure queue. The pool joins every task, but the
exception stays inside the never-read futures (`escaped`): the failure and
success queues stay empty and the pass continues as if nothing happened,
contradicting the requirement that no worker exception be silently
dropped. -/
theorem C1_worker_exception_dropped :
    runQueueThreaded envBadExt "2026-10-12" (fun _ => "S1/P/WB") [] [wbSample] =
      { state := [], failures := [], successes := [],
        removedFiles := [], escaped := ["IndexError"] } := by
  decide

/-- Claim C2: a workbook is left out of the transfer queue exactly when the
loaded state holds a record at its canonical path whose `id`, `updated_at`
and `created_at` all equal the workbook's values (under the fixed rendering
carried by the embedding); a missing record or any field difference puts it
in the queue. The source tests the state after the removal loop, but
pruning never drops a record at a live path, so the test coincides with one
against the loaded state. -/
theorem C2_skip_iff_record_matches (st : SyncState) (pathF : WorkbookItem → String)
    (wbs : List WorkbookItem) (wb : WorkbookItem) (hwb : wb ∈ wbs) :
    wb ∉ queueToBackup st pathF wbs ↔
      ∃ r, stLookup st (pathF wb) = some r ∧ r.id = wb.id ∧
        r.updated_at = wb.updated_at ∧ r.created_at = wb.created_at := by
  have hlive : (wbs.map pathF).contains (pathF wb) = true := by
    simpa using List.mem_map_of_mem pathF hwb
  have hkey : wbUnchanged (pruneState st (wbs.map pathF)) (pathF wb) wb = true ↔
      ∃ r, stLookup st (pathF wb) = some r ∧ r.id = wb.id ∧
        r.updated_at = wb.updated_at ∧ r.created_at = wb.created_at := by
    rw [wbUnchanged_iff, stLookup_pruneState st _ _ hlive]
  have hmem : wb ∈ queueToBackup st pathF wbs ↔
      ¬ ∃ r, stLookup st (pathF wb) = some r ∧ r.id = wb.id ∧
        r.updated_at = wb.updated_at ∧ r.created_at = wb.created_at := by
    constructor
    · intro hm hex
      have h2 := (List.mem_filter.1 hm).2
      rw [Bool.not_eq_true'] at h2
      rw [hkey.2 hex] at h2
      cases h2
    · intro hnex
      refine List.mem_filter.2 ⟨hwb, ?_⟩
      cases hu : wbUnchanged (pruneState st (wbs.map pathF)) (pathF wb) wb
      · rfl
      · exact absurd (hkey.1 hu) hnex
  rw [hmem, not_not]

/-- Witness for C2 at a concrete input: a state holding an exactly-matching
record makes the workbook skip the queue. -/
theorem C2_skip_iff_record_matches_witness :
    wbSample ∉ queueToBackup [("S1/P/W", mkRecord "d0" "S1/P/W.twbx" wbSample)]
      (fun _ => "S1/P/W") [wbSample] :=
  (C2_skip_iff_record_matches _ _ _ _ (by decide)).mpr
    ⟨mkRecord "d0" "S1/P/W.twbx" wbSample, by decide, rfl, rfl, rfl⟩

/-- Claim C3: a state entry whose key is not among the live paths is
selected by the removal loop, its record's `object_key` is touched, and it
is gone from the state the transfer phase starts from; conversely only such
entries are selected; and every key of the state produced by the pass (the
one later persisted) is a live path. -/
theorem C3_removed_touched_pruned_live (st : SyncState) (pathF : WorkbookItem → String)
    (wbs : List WorkbookItem) (env : TransferEnv) (today : String)
    (k : String) (r : StateRecord) :
    ((k, r) ∈ st → (wbs.map pathF).contains k = false →
      (k, r) ∈ removedEntries st (wbs.map pathF) ∧
        r.object_key ∈ (backupSitePure env today pathF st wbs).touched ∧
        stLookup (pruneState st (wbs.map pathF)) k = none) ∧
    ((k, r) ∈ removedEntries st (wbs.map pathF) →
      (k, r) ∈ st ∧ (wbs.map pathF).contains k = false) ∧
    ((k, r) ∈ (backupSitePure env today pathF st wbs).run.state → k ∈ wbs.map pathF) := by
  refine ⟨?_, ?_, ?_⟩
  · intro hmem hdead
    have hrem : (k, r) ∈ removedEntries st (wbs.map pathF) :=
      mem_removedEntries.2 ⟨hmem, hdead⟩
    refine ⟨hrem, ?_, stLookup_pruneState_dead st _ k hdead⟩
    exact List.mem_map_of_mem (fun p => p.2.object_key) hrem
  · exact fun h => mem_removedEntries.1 h
  · exact fun h => backupSitePure_state_live h

/-- Witness for C3 at a concrete input: a record at the dead path `S1/old`
is selected, its stored object key is touched, and it is absent from the
state entering the transfer phase. -/
theorem C3_removed_touched_pruned_live_witness :
    ("S1/old", recOld) ∈ removedEntries [("S1/old", recOld)] ([wbSample].map (fun _ => "S1/P/W")) ∧
      recOld.object_key ∈
        (backupSitePure envAllOk "d0" (fun _ => "S1/P/W") [("S1/old", recOld)] [wbSample]).touched ∧
      stLookup (pruneState [("S1/old", recOld)] ([wbSample].map (fun _ => "S1/P/W"))) "S1/old" = none :=
  (C3_removed_touched_pruned_live [("S1/old", recOld)] (fun _ => "S1/P/W")
    [wbSample] envAllOk "d0" "S1/old" recOld).1 (by decide) (by decide)

/-- Claim C4: state load issues one fetch at the deterministic per-site key
(last conjunct: the result depends on the store only through that key); a
`NoSuchKey` client error yields the empty state; any other client error,
any other raised error, and any parse failure propagate as errors, never as
a guessed state; a successful parse is returned as-is. -/
theorem C4_state_load_semantics (get get2 : String → S3GetResult)
    (parse : String → Option SyncState) (site : String) :
    (get (stateObjKey site) = .clientError "NoSuchKey" →
      downloadUploadState get parse site = .ok []) ∧
    (∀ code, get (stateObjKey site) = .clientError code → code ≠ "NoSuchKey" →
      downloadUploadState get parse site = .error ("ClientError " ++ code)) ∧
    (∀ msg, get (stateObjKey site) = .otherError msg →
      downloadUploadState get parse site = .error msg) ∧
    (∀ body, get (stateObjKey site) = .ok body → parse body = none →
      downloadUploadState get parse site = .error "StateParseError") ∧
    (∀ body st, get (stateObjKey site) = .ok body → parse body = some st →
      downloadUploadState get parse site = .ok st) ∧
    (get (stateObjKey site) = get2 (stateObjKey site) →
      downloadUploadState get parse site = downloadUploadState get2 parse site) := by
  refine ⟨?_, ?_, ?_, ?_, ?_, ?_⟩
  · intro h
    unfold downloadUploadState
    rw [h]
    rfl
  · intro code h hne
    have hbeq : (code == "NoSuchKey") = false := by
      simpa using hne
    unfold downloadUploadState
    rw [h]
    simp [hbeq]
  · intro msg h
    unfold downloadUploadState
    rw [h]
  · intro body h hp
    unfold downloadUploadState
    rw [h]
    dsimp only
    rw [hp]
  · intro body st h hp
    unfold downloadUploadState
    rw [h]
    dsimp only
    rw [hp]
  · intro h
    unfold downloadUploadState
    rw [h]

/-- Witness for C4 at concrete inputs: absent key gives the empty state;
a different client error, another error, and a parse failure all propagate;
a good body parses through. -/
theorem C4_state_load_semantics_witness :
    downloadUploadState (fun _ => .clientError "NoSuchKey") (fun _ => none) "S1" = .ok [] ∧
    downloadUploadState (fun _ => .clientError "AccessDenied") (fun _ => none) "S1" =
      .error ("ClientError " ++ "AccessDenied") ∧
    downloadUploadState (fun _ => .otherError "net") (fun _ => none) "S1" = .error "net" ∧
    downloadUploadState (fun _ => .ok "garbage") (fun _ => none) "S1" =
      .error "StateParseError" ∧
    downloadUploadState (fun _ => .ok "x") (fun _ => some []) "S1" = .ok [] :=
  ⟨(C4_state_load_semantics (fun _ => .clientError "NoSuchKey") (fun _ => .ok "")
      (fun _ => none) "S1").1 rfl,
   (C4_state_load_semantics (fun _ => .clientError "AccessDenied") (fun _ => .ok "")
      (fun _ => none) "S1").2.1 "AccessDenied" rfl (by decide),
   (C4_state_load_semantics (fun _ => .otherError "net") (fun _ => .ok "")
      (fun _ => none) "S1").2.2.1 "net" rfl,
   (C4_state_load_semantics (fun _ => .ok "garbage") (fun _ => .ok "")
      (fun _ => none) "S1").2.2.2.1 "garbage" rfl rfl,
   (C4_state_load_semantics (fun _ => .ok "x") (fun _ => .ok "")
      (fun _ => some []) "S1").2.2.2.2.1 "x" [] rfl rfl⟩

/-- Counterexample to claim C5: on the one-project self-cycle the ancestry
walk never leaves the `running` state — no number of loop iterations
reaches the `break` or a failure, so resolution does not terminate, and in
particular does not fail after a bounded number of hops. -/
theorem C5_cycle_never_terminates :
    ¬ ∃ n : Nat, resolveLoop cycProjects (some "a") [] n ≠ LoopResult.running := by
  rintro ⟨n, hn⟩
  exact hn (resolveLoop_cyc_running n [])

/-- Claim C5 (amended): for every ancestry chain that reaches a root
(`Chain`), some finite number of iterations completes the walk with exactly
the collected names, so resolution terminates on every acyclic forest and
yields the root-to-leaf slash-joined path (third conjunct: the
`S1/A/B/Report` determinism example); a `parent_id` absent from the tree
makes the walk fail on its next iteration (the source raises `KeyError`
from the dict lookup); but — unlike the original claim — a parent cycle
makes the source loop forever rather than fail after a bounded number of
hops. -/
theorem C5_resolution_amended :
    (∀ (ps : List ProjectItem) (pid? : Option String) (names : List String),
      Chain ps pid? names →
        ∀ acc, ∃ n, resolveLoop ps pid? acc n = .done (acc ++ names)) ∧
    (∀ (ps : List ProjectItem) (pid : String) (acc : List String) (n : Nat),
      pid.isEmpty = false → dictById ps pid = none →
      resolveLoop ps (some pid) acc (n + 1) = .keyError) ∧
    wbPathOf "S1" exTree wbReport = some "S1/A/B/Report" := by
  refine ⟨?_, ?_, ?_⟩
  · exact fun ps pid? names h acc => resolveLoop_of_chain h acc
  · exact fun ps pid acc n h1 h2 => resolveLoop_keyError h1 h2 acc n
  · decide

/-- Witness for C5 (amended) at concrete inputs: the chain `B → A → root`
of `exTree` completes with names `[B, A]`, and a dangling `parent_id` in
the empty tree fails in one iteration. -/
theorem C5_resolution_amended_witness :
    (∃ n, resolveLoop exTree (some "b") [] n =
      LoopResult.done (([] : List String) ++ ["B", "A"])) ∧
    resolveLoop ([] : List ProjectItem) (some "x") [] 1 = LoopResult.keyError :=
  ⟨C5_resolution_amended.1 exTree (some "b") ["B", "A"]
      (@Chain.step exTree "b" ⟨"b", "B", some "a"⟩ ["A"] (by decide) (by decide)
        (@Chain.step exTree "a" ⟨"a", "A", none⟩ [] (by decide) (by decide) Chain.root)) [],
   C5_resolution_amended.2.1 [] "x" [] 0 (by decide) (by decide)⟩

/-- Claim C6: if the state a pass produced records every inventory workbook
under its canonical path with matching `id` and timestamp renderings (what
a fully successful pass over that inventory yields), then a second pass
over the unchanged inventory plans nothing: its transfer queue is empty and
its removed set (and hence its touch list) is empty. -/
theorem C6_second_pass_plan_empty (env env2 : TransferEnv) (today today2 : String)
    (pathF : WorkbookItem → String) (wbs : List WorkbookItem) (st0 : SyncState)
    (hAll : ∀ wb ∈ wbs, ∃ r,
      stLookup ((backupSitePure env today pathF st0 wbs).run.state) (pathF wb) = some r ∧
        r.id = wb.id ∧ r.updated_at = wb.updated_at ∧ r.created_at = wb.created_at) :
    (backupSitePure env2 today2 pathF
        ((backupSitePure env today pathF st0 wbs).run.state) wbs).queue = [] ∧
    removedEntries ((backupSitePure env today pathF st0 wbs).run.state) (wbs.map pathF) = [] ∧
    (backupSitePure env2 today2 pathF
        ((backupSitePure env today pathF st0 wbs).run.state) wbs).touched = [] := by
  have hrem : removedEntries ((backupSitePure env today pathF st0 wbs).run.state)
      (wbs.map pathF) = [] := by
    refine List.filter_eq_nil_iff.2 ?_
    intro p hp
    have hlive : p.1 ∈ wbs.map pathF := backupSitePure_state_live hp
    simp [hlive]
  refine ⟨?_, hrem, ?_⟩
  · refine List.filter_eq_nil_iff.2 ?_
    intro wb hwb
    have hlive : (wbs.map pathF).contains (pathF wb) = true := by
      simpa using List.mem_map_of_mem pathF hwb
    obtain ⟨r, hr, h1, h2, h3⟩ := hAll wb hwb
    have hu : wbUnchanged
        (pruneState ((backupSitePure env today pathF st0 wbs).run.state) (wbs.map pathF))
        (pathF wb) wb = true := by
      refine wbUnchanged_iff.2 ⟨r, ?_, h1, h2, h3⟩
      rw [stLookup_pruneState _ _ _ hlive]
      exact hr
    simp [hu]
  · show (removedEntries _ _).map _ = []
    rw [hrem]
    rfl

/-- Witness for C6 at a concrete input: one workbook, empty starting state,
all-success oracles — the second pass plans nothing. -/
theorem C6_second_pass_plan_empty_witness :
    (backupSitePure envAllOk "d2" (fun _ => "S1/P/W")
        ((backupSitePure envAllOk "d1" (fun _ => "S1/P/W") [] [wbSample]).run.state)
        [wbSample]).queue = [] ∧
    removedEntries ((backupSitePure envAllOk "d1" (fun _ => "S1/P/W") [] [wbSample]).run.state)
      ([wbSample].map (fun _ => "S1/P/W")) = [] ∧
    (backupSitePure envAllOk "d2" (fun _ => "S1/P/W")
        ((backupSitePure envAllOk "d1" (fun _ => "S1/P/W") [] [wbSample]).run.state)
        [wbSample]).touched = [] :=
  C6_second_pass_plan_empty envAllOk envAllOk "d1" "d2" (fun _ => "S1/P/W") [wbSample] []
    (by
      intro wb hwb
      rw [List.mem_singleton] at hwb
      subst hwb
      exact ⟨mkRecord "d1" "S1/P/W.twbx" wbSample, by decide, rfl, rfl, rfl⟩)

/-- Claim C7: the per-item transfer is atomic for the state and
unconditional about cleanup — download failure queues the failure, leaves
the state untouched and removes nothing; upload failure queues the failure,
leaves the state untouched and still removes the staged file; upload
success (and only it) writes the record at the canonical path, removes the
staged file and queues the success; any state change implies the download,
the key derivation and the upload all succeeded. -/
theorem C7_transfer_atomicity (env : TransferEnv) (today wbPath : String)
    (st : SyncState) (wb : WorkbookItem) :
    (∀ e, env.download wb = .fail e →
      (backupWb env today wbPath st wb).failures = [(e, mkSummary wb)] ∧
      (backupWb env today wbPath st wb).newState = st ∧
      (backupWb env today wbPath st wb).removedFiles = [] ∧
      (backupWb env today wbPath st wb).successes = []) ∧
    (∀ fp objKey e, env.download wb = .ok fp → objKeyOf wbPath fp = some objKey →
      env.upload wb = some e →
      (backupWb env today wbPath st wb).failures = [(e, mkSummary wb)] ∧
      (backupWb env today wbPath st wb).newState = st ∧
      (backupWb env today wbPath st wb).removedFiles = [fp] ∧
      (backupWb env today wbPath st wb).successes = []) ∧
    (∀ fp objKey, env.download wb = .ok fp → objKeyOf wbPath fp = some objKey →
      env.upload wb = none →
      (backupWb env today wbPath st wb).newState =
        stInsert st wbPath (mkRecord today objKey wb) ∧
      (backupWb env today wbPath st wb).removedFiles = [fp] ∧
      (backupWb env today wbPath st wb).successes = [mkSummary wb] ∧
      (backupWb env today wbPath st wb).failures = []) ∧
    ((backupWb env today wbPath st wb).newState ≠ st →
      ∃ fp objKey, env.download wb = .ok fp ∧ objKeyOf wbPath fp = some objKey ∧
        env.upload wb = none) := by
  refine ⟨?_, ?_, ?_, ?_⟩
  · intro e h
    unfold backupWb
    rw [h]
    exact ⟨rfl, rfl, rfl, rfl⟩
  · intro fp objKey e hd ho hu
    unfold backupWb
    rw [hd]
    dsimp only
    rw [ho, hu]
    exact ⟨rfl, rfl, rfl, rfl⟩
  · intro fp objKey hd ho hu
    unfold backupWb
    rw [hd]
    dsimp only
    rw [ho, hu]
    exact ⟨rfl, rfl, rfl, rfl⟩
  · unfold backupWb
    rcases hd : env.download wb with e | fp
    · intro h
      exact absurd rfl h
    · dsimp only
      rcases ho : objKeyOf wbPath fp with _ | objKey
      · intro h
        exact absurd rfl h
      · rcases hu : env.upload wb with _ | e
        · intro _
          exact ⟨fp, objKey, rfl, ho, rfl⟩
        · intro h
          exact absurd rfl h

/-- Witness for C7 at concrete inputs: the download-failure, upload-failure
and full-success branches each behave as stated. -/
theorem C7_transfer_atomicity_witness :
    ((backupWb envDlFail "d" "S1/P/W" [] wbSample).newState = [] ∧
      (backupWb envDlFail "d" "S1/P/W" [] wbSample).removedFiles = []) ∧
    ((backupWb envUpFail "d" "S1/P/W" [] wbSample).newState = [] ∧
      (backupWb envUpFail "d" "S1/P/W" [] wbSample).failures =
        [("up", mkSummary wbSample)]) ∧
    (backupWb envAllOk "d" "S1/P/W" [] wbSample).successes = [mkSummary wbSample] := by
  have h1 := (C7_transfer_atomicity envDlFail "d" "S1/P/W" [] wbSample).1 "down" rfl
  have h2 := (C7_transfer_atomicity envUpFail "d" "S1/P/W" [] wbSample).2.1
    ("wd/aaaaaaaa.twbx".data) "S1/P/W.twbx" "up" rfl (by decide) rfl
  have h3 := (C7_transfer_atomicity envAllOk "d" "S1/P/W" [] wbSample).2.2.1
    ("wd/aaaaaaaa.twbx".data) "S1/P/W.twbx" rfl (by decide) rfl
  exact ⟨⟨h1.2.1, h1.2.2.1⟩, ⟨h2.2.1, h2.1⟩, h3.2.2.1⟩

/-- Counterexample to claim C8: requesting the non-inventory site `X`
through `run_backup` produces NO warning — the name is silently dropped by
the site filter and the run ends with zero passes and zero warnings; and
calling `backup_site` directly with `X` after a pass over `S1` does log the
warning but does NOT skip the pass: it re-lists the previous session site
`S1` and writes the state object at `S1`'s key again. -/
theorem C8_unmatched_site_no_warning :
    runBackup siteEnvS1 objFresh (some ["X"]) "2026-10-12" envDlFail 30 [] =
      .ok ({ passes := [], warnedPasses := [], totalCount := 0, refreshed := [] },
        objFresh) ∧
    backupSiteFull siteEnvS1 objAfterS1 "X" "d" envDlFail =
      .ok ({ warned := true, listedSite := "S1",
             stateWriteKey := "S1" ++ "/" ++ "upload_state.json", finalState := [],
             touched := [], failures := [], successes := [], escaped := [],
             wbCount := 0 }, objAfterS1) :=
  ⟨rfl, rfl⟩

/-- Claim C8 (amended): an unmatched requested site name is silently
removed by `run_backup`'s filter — the warning is never logged through
`run_backup` (second conjunct: a completed run has an empty warned list),
the bad name yields no pass, and matching requested names keep their
passes (first conjunct); the site-not-found warning exists only in
`_ts_switch_site`, and a direct `backup_site` call with an unmatched name
does not skip the pass: it proceeds against the previously selected site,
re-listing that session site and rewriting that site's state key (third
conjunct), or fails with a `TypeError` when no site was selected before
(fourth conjunct). -/
theorem C8_site_filter_amended :
    (∀ (sites ns : List String) (s : String), ns.isEmpty = false →
      (s ∈ filterSitesByNames sites (some ns) ↔ s ∈ sites ∧ s ∈ ns)) ∧
    (∀ (env : TSEnv) (o : ObjState) (names : Option (List String)) (today : String)
        (tenv : TransferEnv) (days : Int) (bucket : List S3Obj) (out : RunOut)
        (o' : ObjState),
      runBackup env o names today tenv days bucket = .ok (out, o') →
      out.warnedPasses = []) ∧
    (∀ (env : TSEnv) (o : ObjState) (name today : String) (tenv : TransferEnv)
        (cur : String) (ps : List ProjectItem),
      env.sites.contains name = false → o.curSiteName = some cur →
      o.projects = some ps →
      (env.workbooksOf o.sessionSite).all (fun wb => (wbPathOf cur ps wb).isSome) = true →
      ∃ out o', backupSiteFull env o name today tenv = .ok (out, o') ∧
        out.warned = true ∧ out.stateWriteKey = stateObjKey cur ∧
        out.listedSite = o.sessionSite) ∧
    (∀ (env : TSEnv) (o : ObjState) (name today : String) (tenv : TransferEnv),
      env.sites.contains name = false → o.curSiteName = none →
      backupSiteFull env o name today tenv = .error "TypeError") := by
  refine ⟨?_, ?_, ?_, ?_⟩
  · intro sites ns s hne
    simp only [filterSitesByNames]
    rw [if_neg (by simp [hne])]
    rw [List.mem_filter]
    simp
  · intro env o names today tenv days bucket out o' h
    unfold runBackup at h
    refine foldlM_runBackupStep_warned _ _ out o' ?_ h
    intro s hs
    have := mem_filterSitesByNames hs
    simpa using this
  · intro env o name today tenv cur ps hname hcur hproj hall
    simp only [backupSiteFull.eq_def, tsSwitchSite_missing hname, hcur, hproj, hall]
    exact ⟨_, _, rfl, rfl, rfl, rfl⟩
  · intro env o name today tenv hname hcur
    simp only [backupSiteFull.eq_def, tsSwitchSite_missing hname, hcur]

/-- Witness for C8 (amended) at concrete inputs: the filter keeps `S1` and
drops `X`, and the direct `backup_site` call with an unmatched name after
an `S1` pass warns, rewrites `S1`'s state key, and re-lists `S1`. -/
theorem C8_site_filter_amended_witness :
    ("S1" ∈ filterSitesByNames ["S1"] (some ["X", "S1"]) ↔
      "S1" ∈ ["S1"] ∧ "S1" ∈ ["X", "S1"]) ∧
    (∃ out o', backupSiteFull siteEnvS1 objAfterS1 "X" "d" envUpFail = .ok (out, o') ∧
      out.warned = true ∧ out.stateWriteKey = stateObjKey "S1" ∧
      out.listedSite = objAfterS1.sessionSite) ∧
    backupSiteFull siteEnvS1 objFresh "X" "d" envUpFail = .error "TypeError" :=
  ⟨C8_site_filter_amended.1 ["S1"] ["X", "S1"] "S1" (by decide),
   C8_site_filter_amended.2.2.1 siteEnvS1 objAfterS1 "X" "d" envUpFail "S1" []
     (by decide) rfl rfl (by decide),
   C8_site_filter_amended.2.2.2 siteEnvS1 objFresh "X" "d" envUpFail (by decide) rfl⟩

/-- Counterexample to claim C9: a downloaded file whose extension has seven
characters (`.abcdefg`) makes the last-seven-characters slice dot-free, so
the key derivation raises `IndexError` (`none`) instead of producing the
canonical path plus that extension. -/
theorem C9_long_extension_key_fails :
    objKeyOf "S1/P/W" (String.data "wd/aaaaaaaa.abcdefg") = none ∧
    objKeyOf "S1/P/W" (String.data "wd/aaaaaaaa.abcdefg") ≠
      some ("S1/P/W" ++ "." ++ "abcdefg") := by
  exact ⟨by decide, by decide⟩

/-- Claim C9 (amended): for a download staged at a dot-free identifier of
at least six characters (the source stages under the workbook's 36-character
uuid), the derived object key equals the canonical path, a dot, and the
file extension actually produced — provided that extension is dot-free and
at most six characters long (which covers the `twb` and `twbx` files the
source system produces); longer extensions make the derivation raise
instead (see the counterexample). -/
theorem C9_object_key_amended (pre idc ext : List Char) (wbPath : String)
    (hid : ('.' : Char) ∉ idc) (hext : ('.' : Char) ∉ ext)
    (hel : ext.length ≤ 6) (hil : 6 ≤ idc.length) :
    objKeyOf wbPath (pre ++ (idc ++ '.' :: ext)) =
      some (wbPath ++ "." ++ String.mk ext) := by
  unfold objKeyOf
  rw [pyLast7_split pre idc ext hel hil]
  have hdrop : ('.' : Char) ∉ idc.drop (idc.length + ext.length - 6) :=
    fun h => hid (List.drop_subset _ _ h)
  rw [pySplitDot_append hdrop hext]
  rfl

/-- Witness for C9 (amended) at a concrete input: an eight-character
dot-free staging identifier and the `twbx` extension give the canonical
path plus `.twbx`. -/
theorem C9_object_key_amended_witness :
    objKeyOf "S1/P/W" ("wd/".data ++ ("aaaaaaaa".data ++ '.' :: "twbx".data)) =
      some ("S1/P/W" ++ "." ++ String.mk "twbx".data) :=
  C9_object_key_amended "wd/".data "aaaaaaaa".data "twbx".data "S1/P/W"
    (by decide) (by decide) (by decide) (by decide)

/-- Claim C10: the staleness sweep lists exactly the stored objects whose
key starts with the site name plus a slash; the persisted state object's
key `site/upload_state.json` starts with that prefix, so when a bucket
object at that key has last-modified age at least the threshold, its key is
among the touched ones. -/
theorem C10_sweep_includes_state_object (bucket : List S3Obj) (site : String)
    (days : Int) (o : S3Obj) :
    (o ∈ listAllObjectsInCurrSite bucket site ↔
      o ∈ bucket ∧ pyStartswith o.key (site ++ "/") = true) ∧
    pyStartswith (stateObjKey site) (site ++ "/") = true ∧
    (o ∈ bucket → o.key = stateObjKey site → days ≤ o.ageDays →
      o.key ∈ updateOutdated bucket site days) := by
  have hpre : pyStartswith (stateObjKey site) (site ++ "/") = true := by
    unfold pyStartswith stateObjKey
    rw [String.data_append]
    exact charsStarts_append _ _
  refine ⟨?_, hpre, ?_⟩
  · unfold listAllObjectsInCurrSite
    exact List.mem_filter
  · intro hmem hkey hage
    unfold updateOutdated
    refine List.mem_map.2 ⟨o, ?_, rfl⟩
    refine List.mem_filter.2 ⟨?_, by simpa using hage⟩
    refine List.mem_filter.2 ⟨hmem, ?_⟩
    rw [hkey]
    exact hpre

/-- Witness for C10 at a concrete input: a 31-day-old object stored at
`S1/upload_state.json` is touched by a sweep of site `S1` with a 30-day
threshold. -/
theorem C10_sweep_includes_state_object_witness :
    ("S1" ++ "/" ++ "upload_state.json" : String) ∈
      updateOutdated [⟨"S1" ++ "/" ++ "upload_state.json", 31⟩] "S1" 30 :=
  (C10_sweep_includes_state_object [⟨"S1" ++ "/" ++ "upload_state.json", 31⟩] "S1" 30
      ⟨"S1" ++ "/" ++ "upload_state.json", 31⟩).2.2
    (by decide) rfl (by decide)

end WbBackup
